import Mathlib

/-!
spotify-playlistinator: purge batching, PKCE helpers and the client provider.

A shallow embedding of the parts of `cmd/likedtracks.go`, `cmd/playlists.go`
and `cmd/auth.go` that carry the correctness-relevant logic, followed by the
theorems established about them.

Conventions
* Go `int` values that index slices are `Nat`: every index in the embedded
  code is bounded by the length of a slice held in memory, so 64-bit
  wrap-around cannot occur.
* Bytes of ASCII strings are `Char`s; bytes of digests are `Nat`s.
* A Go `panic` is an absent result (`none`).
-/

namespace Playlistinator

/-! ## Batching of liked tracks (`purgeLikedCmd`, likedtracks.go:176-185) -/

/-- Go slice expression `s[i:j]` (for `i ≤ j ≤ len(s)`). -/
def slice {α : Type} (s : List α) (i j : Nat) : List α :=
  (s.drop i).take (j - i)

/-- The loop
`for i := 0; i < len(toPurge); i += 50 { end := i + 50; if end > len(toPurge) { end = len(toPurge) }; batches = append(batches, toPurge[i:end]) }`
started at loop counter `i` with the batches accumulated so far. -/
def chunkLoop {α : Type} (toPurge : List α) (i : Nat) (batches : List (List α)) :
    List (List α) :=
  if i < toPurge.length then
    chunkLoop toPurge (i + 50)
      (batches ++ [slice toPurge i (if i + 50 > toPurge.length then toPurge.length else i + 50)])
  else
    batches
termination_by toPurge.length - i
decreasing_by omega

/-- The value of `batches` after the loop: `batches := make([][]spotify.ID, 0)`
followed by the loop from `i := 0`. -/
def makeBatches {α : Type} (toPurge : List α) : List (List α) :=
  chunkLoop toPurge 0 []

/-! ## PKCE verifier generation (`generateCodeChallenge`, auth.go:199-212) -/

/-- The local `charSet` of `generateCodeChallenge`. All characters are ASCII, so
byte indexing of the Go string coincides with indexing this character list. -/
def charSet : List Char :=
  "abcdefghijklmnopqrstuvwxyzABCDEFGHIJKLMNOPQRSTUVWXYZ0123456789_.-~".data

/-- The body of `for i := range b`, for the `remaining` indices from `i` on.
`randInt i` is the outcome of the call `rand.Int(rand.Reader, big.NewInt(len(charSet)))`
made in iteration `i`: `none` when it returns an error (the code panics), `some num`
otherwise. `charSet[num]` panics when `num` is out of range. -/
def fillLoop (randInt : Nat → Option Nat) : Nat → Nat → Option (List Char)
  | 0, _ => some []
  | remaining + 1, i =>
    match randInt i with
    | none => none
    | some num =>
      match charSet[num]? with
      | none => none
      | some c => (fillLoop randInt remaining (i + 1)).map (fun rest => c :: rest)

/-- The constant `runtime.maxAlloc` of the Go runtime on 64-bit Linux (48 heap
address bits): `makeslice` refuses every allocation above it. -/
def maxAlloc : Nat := 2 ^ 48

/-- The statement `b := make([]byte, l)`: the length of `b`, or `none` when the
allocation does not return a slice. `runtime.makeslice` panics with "len out of
range" for `l < 0` and for `l` above `maxAlloc`, and the runtime aborts when the
memory is not available. `allocLimit` is the largest length the running process
can allocate: `maxAlloc`, or less when memory is short. -/
def makeBytes (allocLimit : Nat) (l : Int) : Option Nat :=
  if l < 0 ∨ l > (allocLimit : Int) then none else some l.toNat

/-- Model of `generateCodeChallenge(l)`: `make([]byte, l)` may panic; otherwise every
position of `b` is filled by the loop. -/
def generateCodeChallenge (allocLimit : Nat) (randInt : Nat → Option Nat) (l : Int) :
    Option (List Char) :=
  match makeBytes allocLimit l with
  | none => none
  | some len => fillLoop randInt len 0

/-- The alphabet as the specification words it: `a-z`, `A-Z`, `0-9`, `_`, `.`, `-`, `~`. -/
def isUnreservedChar (c : Char) : Bool :=
  c.isLower || c.isUpper || c.isDigit || c == '_' || c == '.' || c == '-' || c == '~'

/-! ## PKCE challenge encoding (`authenticate`, auth.go:143-146) -/

/-- The alphabet `encodeURL` of Go's `encoding/base64` (RFC 4648 §5). -/
def encodeURL : List Char :=
  "ABCDEFGHIJKLMNOPQRSTUVWXYZabcdefghijklmnopqrstuvwxyz0123456789-_".data

/-- Lookup `enc.encode[v]` in the 64-entry table. -/
def encodeByte (v : Nat) : Char := encodeURL.getD v 'A'

/-- Go's `(*Encoding).EncodeToString` for the URL alphabet, following
`(*Encoding).Encode`: full 3-byte groups give 4 characters; a remainder of 2 bytes
gives 3 characters, a remainder of 1 byte gives 2, each followed by `padChar`s up
to 4 when the encoding pads. `padChar = none` is `NoPadding`. -/
def encodeToString (padChar : Option Char) : List Nat → List Char
  | a :: b :: c :: rest =>
    encodeByte ((a <<< 16 ||| b <<< 8 ||| c) >>> 18 &&& 0x3F)
      :: encodeByte ((a <<< 16 ||| b <<< 8 ||| c) >>> 12 &&& 0x3F)
      :: encodeByte ((a <<< 16 ||| b <<< 8 ||| c) >>> 6 &&& 0x3F)
      :: encodeByte ((a <<< 16 ||| b <<< 8 ||| c) &&& 0x3F)
      :: encodeToString padChar rest
  | [a, b] =>
    [encodeByte ((a <<< 16 ||| b <<< 8) >>> 18 &&& 0x3F),
     encodeByte ((a <<< 16 ||| b <<< 8) >>> 12 &&& 0x3F),
     encodeByte ((a <<< 16 ||| b <<< 8) >>> 6 &&& 0x3F)] ++ padChar.toList
  | [a] =>
    [encodeByte ((a <<< 16) >>> 18 &&& 0x3F),
     encodeByte ((a <<< 16) >>> 12 &&& 0x3F)] ++ padChar.toList ++ padChar.toList
  | [] => []

/-- The encoding `base64.URLEncoding`: URL alphabet with `=` padding. -/
def urlEncoding (src : List Nat) : List Char := encodeToString (some '=') src

/-- The encoding `base64.RawURLEncoding`: URL alphabet, no padding. -/
def rawURLEncoding (src : List Nat) : List Char := encodeToString none src

/-- Go's `strings.TrimRight(s, cutset)`: drop every trailing character of `s` that
occurs in `cutset`. -/
def trimRight (s cutset : List Char) : List Char :=
  (s.reverse.dropWhile (fun c => cutset.contains c)).reverse

/-- The value `hashedVerifier` that `authenticate` passes as `code_challenge`:
`strings.TrimRight(base64.URLEncoding.EncodeToString(hash[:]), "=")`, where the
digest is `sha256.Sum256(challenge)` for a digest function `sha256`. -/
def hashedVerifier (sha256 : List Char → List Nat) (challenge : List Char) : List Char :=
  trimRight (urlEncoding (sha256 challenge)) "=".data

/-- The base64url alphabet as the specification words it: `A-Z a-z 0-9 - _`. -/
def isBase64URLChar (c : Char) : Bool :=
  c.isUpper || c.isLower || c.isDigit || c == '-' || c == '_'

/-! ## The authorization flow (`authenticate`, auth.go:140-197) -/

/-- An `oauth2.Token`, reduced to the fields the flow distinguishes. -/
structure Token where
  accessToken : String
  refreshToken : String
deriving DecidableEq, Repr

/-- The errors `authenticate` returns. -/
inductive AuthError where
  /-- Result of `errors.Wrapf(err, "failed to capture auth callback")`. -/
  | captureFailed (cause : String)
  /-- Result of `errors.Errorf("state mismatch, expected %s, got %s", state, gotState)`. -/
  | stateMismatch (expected got : String)
  /-- Result of `errors.Wrapf(err, "failed to exchange auth code")`. -/
  | exchangeFailed (cause : String)
deriving DecidableEq, Repr

/-- Externally visible actions of `authenticate`, in program order. -/
inductive AuthEvent where
  /-- The URL built by `cfg.AuthCodeURL(state, code_challenge_method=S256, code_challenge)`. -/
  | authCodeURL (state : String) (codeChallenge : List Char)
  /-- The call `srv.ListenAndServe()`. -/
  | listenAndServe
  /-- The request `cfg.Exchange(ctx, gotCode, code_verifier=challenge, client_id=…)`. -/
  | exchange (code : String) (codeVerifier : List Char)
deriving DecidableEq, Repr

/-- Everything `authenticate` obtains from outside the program. -/
structure AuthEnv where
  /-- Value of `uuid.New().String()`; `none` when `uuid.New` panics. -/
  newState : Option String
  /-- Outcomes of the successive `rand.Int` calls. -/
  randInt : Nat → Option Nat
  /-- The function `sha256.Sum256`. -/
  sha256 : List Char → List Nat
  /-- Error returned by `srv.ListenAndServe()` when it is not `http.ErrServerClosed`;
  `none` when it is `http.ErrServerClosed`. -/
  listenErr : Option String
  /-- Value received from `shutdownErrChan` (the result of `srv.Close()`). -/
  shutdownErr : Option String
  /-- Value of `gotState` once the server has stopped. -/
  gotState : String
  /-- Value of `gotCode` once the server has stopped. -/
  gotCode : String
  /-- Outcome of `cfg.Exchange` for a code and a verifier. -/
  exchange : String → List Char → Except String Token

/-- The pair `(tok, err)` returned by `authenticate`, with the actions performed. -/
structure AuthResult where
  tok : Option Token
  err : Option AuthError
  events : List AuthEvent
deriving DecidableEq, Repr

/-- Model of `authenticate(ctx)`. The result is `none` when the function panics. The
100-byte verifier is limited by the allocation maximum of the runtime only. -/
def authenticate (env : AuthEnv) : Option AuthResult :=
  match env.newState with
  | none => none
  | some state =>
    match generateCodeChallenge maxAlloc env.randInt 100 with
    | none => none
    | some challenge =>
      let served : List AuthEvent :=
        [.authCodeURL state (hashedVerifier env.sha256 challenge), .listenAndServe]
      match env.listenErr with
      | some e => some ⟨none, some (.captureFailed e), served⟩
      | none =>
        match env.shutdownErr with
        | some e => some ⟨none, some (.captureFailed e), served⟩
        | none =>
          if env.gotState ≠ state then
            some ⟨none, some (.stateMismatch state env.gotState), served⟩
          else
            match env.exchange env.gotCode challenge with
            | .error e =>
              some ⟨none, some (.exchangeFailed e), served ++ [.exchange env.gotCode challenge]⟩
            | .ok token =>
              some ⟨some token, none, served ++ [.exchange env.gotCode challenge]⟩

/-! ## The client provider (`getClient`, auth.go:26-122) -/

/-- A `*spotify.Client`: `addr` identifies the allocation made by `spotify.New`,
`token` is the (possibly nil) token pointer its HTTP client was built from, `retry`
the `WithRetry` option. -/
structure Client where
  addr : Nat
  token : Option Token
  retry : Bool
deriving DecidableEq, Repr

/-- The errors `getClient` returns. -/
inductive ClientError where
  /-- Result of `errors.New("SPOTIFY_CLIENT_ID not set")`. -/
  | clientIDNotSet
  /-- Result of `errors.Wrap(err, "failed to authenticate")`. -/
  | authFailed (cause : AuthError)
deriving DecidableEq, Repr

/-- Actions of the write-locked section of `getClient`, in program order. -/
inductive ClientEvent where
  /-- The call `os.Getenv("SPOTIFY_CLIENT_ID")`, first statement under the write lock. -/
  | getenv
  /-- A call `os.UserHomeDir()`, first statement of either cache closure. -/
  | userHomeDir
  /-- The call `ioutil.ReadFile(tokenFile)`. -/
  | readTokenFile
  /-- The call `tokSource.Token()`. -/
  | refreshToken
  /-- The call `authenticate(ctx)`. -/
  | authenticate
  /-- The call `os.OpenFile(tokenFile, O_RDWR|O_CREATE|O_TRUNC, …)`. -/
  | openTokenFile
  /-- The call `spotify.New(hc, spotify.WithRetry(true))` and the address it returned. -/
  | newClient (addr : Nat)
deriving DecidableEq, Repr

/-- Process state and file state that `getClient` reads and writes. -/
structure World where
  /-- The package variable `spotifyClient`. -/
  spotifyClient : Option Client
  /-- The field `cfg.ClientID`. -/
  cfgClientID : String
  /-- Content of `<home>/.playlistinator/token.json`, `none` when the file is absent. -/
  tokenFile : Option String
  /-- Address the next allocation of a client receives. -/
  nextAddr : Nat
  /-- Actions performed so far. -/
  events : List ClientEvent
deriving DecidableEq, Repr

/-- Everything `getClient` obtains from outside the program. -/
structure ClientEnv where
  /-- Value of `os.Getenv("SPOTIFY_CLIENT_ID")`. -/
  clientID : String
  /-- Whether `os.UserHomeDir()` succeeds. -/
  homeOk : Bool
  /-- The function `json.Unmarshal` into an `oauth2.Token`; `none` on error. -/
  unmarshal : String → Option Token
  /-- Outcome of `cfg.TokenSource(ctx, tok).Token()`; `none` on error. -/
  refresh : Token → Option Token
  /-- The function `json.Marshal` on a token pointer; `none` on error. -/
  marshal : Option Token → Option String
  /-- Whether `os.MkdirAll` succeeds. -/
  mkdirOk : Bool
  /-- Whether `os.OpenFile` succeeds. -/
  openOk : Bool
  /-- Whether `f.Write` succeeds. -/
  writeOk : Bool
  /-- Environment of the call `authenticate(ctx)`. -/
  auth : AuthEnv

/-- The pair `(c, err)` returned by `getClient`. -/
structure ClientResult where
  c : Option Client
  err : Option ClientError
deriving DecidableEq, Repr

/-- The closure of auth.go:48-75 (best effort cache retrieval): the pair `(tok, ok)`
and the world with the actions recorded. -/
def loadCachedToken (env : ClientEnv) (w : World) : Option Token × World :=
  let w0 := { w with events := w.events ++ [.userHomeDir] }
  if !env.homeOk then (none, w0)
  else
    let w1 := { w0 with events := w0.events ++ [.readTokenFile] }
    match w.tokenFile with
    | none => (none, w1)
    | some bytes =>
      match env.unmarshal bytes with
      | none => (none, w1)
      | some tok =>
        let w2 := { w1 with events := w1.events ++ [.refreshToken] }
        match env.refresh tok with
        | none => (none, w2)
        | some tok' => (some tok', w2)

/-- The closure of auth.go:83-113 (best effort cache creation). A failed
`f.Write` leaves the file truncated by `O_TRUNC`. -/
def storeCachedToken (env : ClientEnv) (tok : Option Token) (w : World) : World :=
  let w0 := { w with events := w.events ++ [.userHomeDir] }
  if !env.homeOk then w0
  else
    match env.marshal tok with
    | none => w0
    | some bytes =>
      if !env.mkdirOk then w0
      else
        let w1 := { w0 with events := w0.events ++ [.openTokenFile] }
        if !env.openOk then w1
        else if !env.writeOk then { w1 with tokenFile := some "" }
        else { w1 with tokenFile := some bytes }

/-- Lines auth.go:117-121: build the client from the token, publish it in
`spotifyClient` and return it with a nil error. -/
def publishClient (tok : Option Token) (w : World) : ClientResult × World :=
  let c : Client := ⟨w.nextAddr, tok, true⟩
  (⟨some c, none⟩,
    { w with spotifyClient := some c, nextAddr := w.nextAddr + 1,
             events := w.events ++ [.newClient w.nextAddr] })

/-- The read-locked section of `getClient` (auth.go:30-37): the value of
`spotifyClient` seen under `clientMu.RLock()`. -/
def getClientFast (w : World) : Option Client := w.spotifyClient

/-- The write-locked section of `getClient` (auth.go:38-121), executed atomically
with respect to every other locked section. `none` when `authenticate` panics. -/
def getClientSlow (env : ClientEnv) (w : World) : Option (ClientResult × World) :=
  let w0 := { w with events := w.events ++ [.getenv] }
  if env.clientID = "" then some (⟨none, some .clientIDNotSet⟩, w0)
  else
    let w1 := { w0 with cfgClientID := env.clientID }
    match loadCachedToken env w1 with
    | (some tok, w2) => some (publishClient (some tok) w2)
    | (none, w2) =>
      let w3 := { w2 with events := w2.events ++ [.authenticate] }
      match authenticate env.auth with
      | none => none
      | some r =>
        match r.err with
        | some e => some (⟨none, some (.authFailed e)⟩, w3)
        | none => some (publishClient r.tok (storeCachedToken env r.tok w3))

/-- Model of one call `getClient(ctx)` with no other goroutine running between its
two locked sections. -/
def getClient (env : ClientEnv) (w : World) : Option (ClientResult × World) :=
  match getClientFast w with
  | some c => some (⟨some c, none⟩, w)
  | none => getClientSlow env w

/-! ### Concurrent callers of `getClient`

`clientMu` makes each of the two locked sections of `getClient` atomic; the only
point where another goroutine can run in between is after `clientMu.RUnlock()`
(line 37) and before `clientMu.Lock()` (line 38). A caller is therefore at one of
three program points. -/

/-- Program point of one goroutine executing `getClient`. -/
inductive CallerState where
  /-- Before `clientMu.RLock()`. -/
  | atEntry
  /-- After `clientMu.RUnlock()` on line 37, having seen `spotifyClient == nil`. -/
  | awaitingLock
  /-- Returned with the given result. -/
  | returned (res : ClientResult)
deriving DecidableEq, Repr

/-- The shared world together with the program point of every caller. -/
structure Concurrent where
  world : World
  callers : List CallerState
deriving DecidableEq, Repr

/-- The next locked section of caller `t` runs to completion. `none` on a panic. -/
def stepCaller (env : ClientEnv) (t : Nat) (s : Concurrent) : Option Concurrent :=
  match s.callers[t]? with
  | some .atEntry =>
    match getClientFast s.world with
    | some c => some { s with callers := s.callers.set t (.returned ⟨some c, none⟩) }
    | none => some { s with callers := s.callers.set t .awaitingLock }
  | some .awaitingLock =>
    match getClientSlow env s.world with
    | none => none
    | some (res, w) => some { world := w, callers := s.callers.set t (.returned res) }
  | _ => some s

/-- Run the callers in the order given by the schedule (a list of caller indices). -/
def runSchedule (env : ClientEnv) : List Nat → Concurrent → Option Concurrent
  | [], s => some s
  | t :: rest, s =>
    match stepCaller env t s with
    | none => none
    | some s' => runSchedule env rest s'

/-- The state in which `n` goroutines are about to call `getClient`. -/
def concurrentCallers (w : World) (n : Nat) : Concurrent :=
  ⟨w, List.replicate n .atEntry⟩

/-- Number of entries into the write-locked section recorded in an event log. -/
def slowPathRuns (events : List ClientEvent) : Nat :=
  events.count .getenv

/-! ## The worker pool (`workerpool.New(5)`, `Submit`, `StopWait`)

The pool of `github.com/gammazero/workerpool`: submitted tasks wait in a FIFO
queue, at most `maxWorkers` of them are being executed at any time, and
`StopWait` returns once every queued task has run. A task is observed at two
instants: when a worker begins it and when its function returns. -/

/-- State of a pool over tasks of type `τ`. -/
structure Pool (τ : Type) where
  /-- Submitted tasks no worker has begun yet, oldest first. -/
  queue : List τ
  /-- Tasks begun whose function has not returned yet. -/
  running : List τ
  /-- Tasks in the order in which workers began them. -/
  started : List τ
  /-- Tasks in the order in which their functions returned. -/
  finished : List τ
deriving DecidableEq, Repr

/-- The function of the `k`-th running task returns. -/
def Pool.finishAt {τ : Type} (k : Nat) (p : Pool τ) : Pool τ :=
  match p.running[k]? with
  | none => p
  | some t => { p with running := p.running.eraseIdx k, finished := p.finished ++ [t] }

/-- One scheduling decision. When a task is queued and a worker is free, choice `0`
lets a worker begin the oldest queued task and choice `k + 1` lets running task `k`
return; otherwise the choice selects the running task that returns. A drained
pool does not move. -/
def Pool.step {τ : Type} (maxWorkers : Nat) (choice : Nat) (p : Pool τ) : Pool τ :=
  match p.queue with
  | t :: rest =>
    if p.running.length < maxWorkers then
      match choice % (p.running.length + 1) with
      | 0 => { p with queue := rest, running := p.running ++ [t], started := p.started ++ [t] }
      | k + 1 => p.finishAt k
    else
      p.finishAt (choice % p.running.length)
  | [] => p.finishAt (choice % p.running.length)

/-- Run `fuel` scheduling decisions, decision number `t` being `sched t`. -/
def Pool.run {τ : Type} (maxWorkers : Nat) (sched : Nat → Nat) : Nat → Nat → Pool τ → Pool τ
  | 0, _, p => p
  | fuel + 1, t, p => Pool.run maxWorkers sched fuel (t + 1) (p.step maxWorkers (sched t))

/-- Scheduling decisions still to be taken before the pool is drained: two per
queued task, one per running task. -/
def Pool.pending {τ : Type} (p : Pool τ) : Nat :=
  2 * p.queue.length + p.running.length

/-- The pool after `for … { wp.Submit(task) }` over `tasks`. -/
def Pool.submitAll {τ : Type} (tasks : List τ) : Pool τ :=
  ⟨tasks, [], [], []⟩

/-- The pool when `wp.StopWait()` returns, under the scheduler `sched`: the pending
decisions are taken one after the other. That many decisions drain the pool and
further ones leave it unchanged (`Pool.run_submitAll`, `Pool.step_of_pending_zero`). -/
def Pool.stopWait {τ : Type} (maxWorkers : Nat) (sched : Nat → Nat) (p : Pool τ) : Pool τ :=
  Pool.run maxWorkers sched p.pending 0 p

/-! ## The purge commands (`purgeLikedCmd`, likedtracks.go:133-207; `purgePlaylistCmd`, playlists.go:124-187) -/

/-- A `spotify.ID`. -/
abbrev SpotifyID := String

/-- The struct `trackRow` of likedtracks.go. -/
structure trackRow where
  ID : String
  Name : String
  Artists : String
  Delete : Bool
deriving DecidableEq, Repr

/-- The struct `playlistRow` of playlists.go. -/
structure playlistRow where
  ID : String
  Name : String
  Owner : String
  Delete : Bool
deriving DecidableEq, Repr

/-- The errors the `RunE` of a purge command returns. -/
inductive PurgeError where
  /-- Result of `errors.New("--csv argument is required")`. -/
  | csvRequired
  /-- The error returned by `getClient(ctx)`. -/
  | client (cause : ClientError)
  /-- The error returned by `os.Open`. -/
  | openFailed (cause : String)
  /-- The error returned by `gocsv.UnmarshalFile`. -/
  | unmarshalFailed (cause : String)
deriving DecidableEq, Repr

/-- Everything a purge command obtains from outside: flags, the outcomes of the
calls it makes before purging, the outcome of the remote operation for each
submitted task, and the scheduling decisions of the worker pool. `Row` is the row
type of the CSV file, `Arg` the argument of one remote call. -/
structure PurgeEnv (Row Arg : Type) where
  /-- The flag `--csv`. -/
  csv : String
  /-- The flag `--dryrun`. -/
  dryrun : Bool
  /-- The error of `getClient(ctx)`, `none` when it returned a client. -/
  getClientErr : Option ClientError
  /-- The error of `os.Open`, `none` on success. -/
  openErr : Option String
  /-- The error of `gocsv.UnmarshalFile`, `none` on success. -/
  unmarshalErr : Option String
  /-- The rows `gocsv.UnmarshalFile` stored in `rows`. -/
  rows : List Row
  /-- Whether the remote operation returns an error for the task with the given
  submission index and argument. -/
  opFails : Nat → Arg → Bool
  /-- Scheduling decisions of the worker pool. -/
  sched : Nat → Nat

/-- What a run of a purge command did. -/
structure PurgeReport (Arg : Type) where
  /-- The error returned by `RunE`; `none` is `nil`. -/
  err : Option PurgeError
  /-- Arguments of the calls of the remote operation, one per task a worker began,
  listed in the order in which the workers took the tasks from the queue. -/
  calls : List Arg
  /-- The maximum given to `progressbar.Default`; `none` when no bar was created. -/
  barMax : Option Nat
  /-- Number of executed `bar.Add(1)`. -/
  barAdds : Nat
  /-- Submission indices of the tasks that logged an error with `zap.L().Error`. -/
  logged : List Nat
deriving DecidableEq, Repr

/-- A run that returns `err` before any bar was created or remote call made. -/
def PurgeReport.early {Arg : Type} (err : Option PurgeError) : PurgeReport Arg :=
  ⟨err, [], none, 0, []⟩

/-- The loop `for _, row := range rows { if row.Delete { toPurge = append(toPurge, spotify.ID(row.ID)) } }`
of likedtracks.go:162-167. -/
def likedToPurge (rows : List trackRow) : List SpotifyID :=
  rows.foldl (fun toPurge row => if row.Delete then toPurge ++ [row.ID] else toPurge) []

/-- The same loop of playlists.go:153-158. -/
def playlistsToPurge (rows : List playlistRow) : List SpotifyID :=
  rows.foldl (fun toPurge row => if row.Delete then toPurge ++ [row.ID] else toPurge) []

/-- Lines 187-205 of likedtracks.go and 167-185 of playlists.go, which differ only
in the remote operation: create the bar with `len(items)` as maximum, submit one
task per item to a pool of 5 workers, wait, return nil. A task issues the remote
call when a worker begins it; when the call has returned it logs the error, if
any, and runs the deferred `bar.Add(1)`. -/
def runPool {Arg : Type} (opFails : Nat → Arg → Bool) (sched : Nat → Nat) (items : List Arg) :
    PurgeReport Arg :=
  let pool := (Pool.submitAll items.enum).stopWait 5 sched
  { err := none
    calls := pool.started.map (fun task => task.2)
    barMax := some items.length
    barAdds := pool.finished.length
    logged := (pool.finished.filter (fun task => opFails task.1 task.2)).map (fun task => task.1) }

/-- Model of the `RunE` of `purgeLikedCmd`; the remote operation is
`spClient.RemoveTracksFromLibrary(ctx, batch...)`. -/
def purgeLiked (env : PurgeEnv trackRow (List SpotifyID)) : PurgeReport (List SpotifyID) :=
  if env.csv = "" then .early (some .csvRequired)
  else
    match env.getClientErr with
    | some e => .early (some (.client e))
    | none =>
      match env.openErr with
      | some e => .early (some (.openFailed e))
      | none =>
        match env.unmarshalErr with
        | some e => .early (some (.unmarshalFailed e))
        | none =>
          if env.dryrun then .early none
          else runPool env.opFails env.sched (makeBatches (likedToPurge env.rows))

/-- Model of the `RunE` of `purgePlaylistCmd`; the remote operation is
`spClient.UnfollowPlaylist(ctx, playlist)`. -/
def purgePlaylist (env : PurgeEnv playlistRow SpotifyID) : PurgeReport SpotifyID :=
  if env.csv = "" then .early (some .csvRequired)
  else
    match env.getClientErr with
    | some e => .early (some (.client e))
    | none =>
      match env.openErr with
      | some e => .early (some (.openFailed e))
      | none =>
        match env.unmarshalErr with
        | some e => .early (some (.unmarshalFailed e))
        | none =>
          if env.dryrun then .early none
          else runPool env.opFails env.sched (playlistsToPurge env.rows)

/-- Whether the run reached the point where the input record set is available:
`--csv` given, client obtained, file opened and parsed. -/
def PurgeEnv.recordsRead {Row Arg : Type} (env : PurgeEnv Row Arg) : Bool :=
  env.csv != "" && env.getClientErr.isNone && env.openErr.isNone && env.unmarshalErr.isNone

/-! ## Concrete environments -/

/-- An authorization attempt that generated state `"Y"`, whose listener stopped
cleanly after a callback carrying state `got`, and whose code exchange would
succeed. -/
def sampleAuthEnv (got : String) : AuthEnv where
  newState := some "Y"
  randInt := fun i => some (i % 66)
  sha256 := fun _ => List.range 32
  listenErr := none
  shutdownErr := none
  gotState := got
  gotCode := "code"
  exchange := fun _ _ => .ok ⟨"access", "refresh"⟩

/-- A process with the given `SPOTIFY_CLIENT_ID`, no usable home directory (hence
no token cache), and the authorization attempt `sampleAuthEnv got`. -/
def sampleClientEnv (clientID got : String) : ClientEnv where
  clientID := clientID
  homeOk := false
  unmarshal := fun _ => none
  refresh := fun _ => none
  marshal := fun _ => none
  mkdirOk := true
  openOk := true
  writeOk := true
  auth := sampleAuthEnv got

/-- The world at process start: no client published, no token file. -/
def initialWorld : World :=
  ⟨none, "", none, 0, []⟩

/-- A non-dry-run purge of liked tracks over a CSV file with one row marked for
deletion, in which every remote call fails. -/
def failingLikedEnv : PurgeEnv trackRow (List SpotifyID) where
  csv := "liked.csv"
  dryrun := false
  getClientErr := none
  openErr := none
  unmarshalErr := none
  rows := [⟨"t1", "Song", "Artist", true⟩]
  opFails := fun _ _ => true
  sched := fun _ => 0

/-- A non-dry-run purge of playlists over a CSV file with two rows marked for
deletion, in which the remote call fails for the first one. -/
def failingPlaylistEnv : PurgeEnv playlistRow SpotifyID where
  csv := "playlists.csv"
  dryrun := false
  getClientErr := none
  openErr := none
  unmarshalErr := none
  rows := [⟨"p1", "Mix", "me", true⟩, ⟨"p2", "Other", "me", true⟩]
  opFails := fun k _ => k == 0
  sched := fun _ => 0

/-- A dry-run purge of liked tracks over three rows, two marked for deletion. -/
def dryRunLikedEnv : PurgeEnv trackRow (List SpotifyID) where
  csv := "liked.csv"
  dryrun := true
  getClientErr := none
  openErr := none
  unmarshalErr := none
  rows := [⟨"t1", "A", "x", true⟩, ⟨"t2", "B", "y", false⟩, ⟨"t3", "C", "z", true⟩]
  opFails := fun _ _ => false
  sched := fun _ => 0

/-- A dry-run purge of playlists over two rows marked for deletion. -/
def dryRunPlaylistEnv : PurgeEnv playlistRow SpotifyID where
  csv := "playlists.csv"
  dryrun := true
  getClientErr := none
  openErr := none
  unmarshalErr := none
  rows := [⟨"p1", "Mix", "me", true⟩, ⟨"p2", "Other", "me", true⟩]
  opFails := fun _ _ => false
  sched := fun _ => 0

/-! ### Lemmas on the chunking loop -/

theorem chunkLoop_flatten {α : Type} (toPurge : List α) (i : Nat) (batches : List (List α)) :
    (chunkLoop toPurge i batches).flatten = batches.flatten ++ toPurge.drop i := by
  induction i, batches using chunkLoop.induct toPurge with
  | case1 i batches hlt ih =>
    simp only [dite_eq_ite] at ih
    rw [chunkLoop, if_pos hlt, ih]
    simp only [List.flatten_append, List.flatten_cons, List.flatten_nil, List.append_nil,
      List.append_assoc, slice]
    congr 1
    by_cases h : i + 50 > toPurge.length
    · have hd : List.drop (i + 50) toPurge = [] := List.drop_eq_nil_of_le (by omega)
      rw [if_pos h, hd, List.append_nil]
      apply List.take_of_length_le
      simp
    · rw [if_neg h, Nat.add_sub_cancel_left, ← List.drop_drop]
      exact List.take_append_drop 50 (toPurge.drop i)
  | case2 i batches hge =>
    rw [chunkLoop, if_neg hge, List.drop_eq_nil_of_le (by omega), List.append_nil]

theorem chunkLoop_length {α : Type} (toPurge : List α) (i : Nat) (batches : List (List α)) :
    (chunkLoop toPurge i batches).length
      = batches.length + (toPurge.length - i + 49) / 50 := by
  induction i, batches using chunkLoop.induct toPurge with
  | case1 i batches hlt ih =>
    simp only [dite_eq_ite] at ih
    rw [chunkLoop, if_pos hlt, ih]
    simp only [List.length_append, List.length_cons, List.length_nil]
    omega
  | case2 i batches hge =>
    rw [chunkLoop, if_neg hge]
    omega

theorem chunkLoop_mem {α : Type} (toPurge : List α) (i : Nat) (batches : List (List α))
    (b : List α) (hb : b ∈ chunkLoop toPurge i batches) :
    b ∈ batches ∨ (0 < b.length ∧ b.length ≤ 50) := by
  induction i, batches using chunkLoop.induct toPurge with
  | case1 i batches hlt ih =>
    simp only [dite_eq_ite] at ih
    rw [chunkLoop, if_pos hlt] at hb
    rcases ih hb with h | h
    · rcases List.mem_append.1 h with h | h
      · exact Or.inl h
      · right
        rw [List.mem_singleton] at h
        subst h
        simp only [slice, List.length_take, List.length_drop]
        split <;> omega
    · exact Or.inr h
  | case2 i batches hge =>
    rw [chunkLoop, if_neg hge] at hb
    exact Or.inl hb

theorem makeBatches_of_le {α : Type} (toPurge : List α) (h0 : 0 < toPurge.length)
    (h : toPurge.length ≤ 50) : makeBatches toPurge = [toPurge] := by
  unfold makeBatches
  rw [chunkLoop, if_pos h0, chunkLoop, if_neg (by omega)]
  simp only [List.nil_append, slice, List.drop_zero, Nat.sub_zero]
  congr 1
  apply List.take_of_length_le
  split <;> omega

theorem makeBatches_of_le_hundred {α : Type} (toPurge : List α) (h0 : 50 < toPurge.length)
    (h : toPurge.length ≤ 100) :
    makeBatches toPurge = [toPurge.take 50, toPurge.drop 50] := by
  unfold makeBatches
  rw [chunkLoop, if_pos (by omega), chunkLoop, if_pos (by omega), chunkLoop, if_neg (by omega)]
  simp only [List.nil_append, slice, List.drop_zero, Nat.sub_zero, Nat.zero_add,
    List.cons_append, List.nil_append]
  rw [if_neg (by omega)]
  congr 2
  apply List.take_of_length_le
  simp only [List.length_drop]
  split <;> omega

/-! ### Lemmas on verifier generation -/

theorem charSet_length : charSet.length = 66 := by decide

theorem charSet_unreserved : ∀ c ∈ charSet, isUnreservedChar c = true := by decide

theorem fillLoop_ok (randInt : Nat → Option Nat) (n i : Nat)
    (hr : ∀ j, i ≤ j → j < i + n → ∃ v, randInt j = some v ∧ v < 66) :
    ∃ b, fillLoop randInt n i = some b ∧ b.length = n ∧ ∀ c ∈ b, c ∈ charSet := by
  induction n generalizing i with
  | zero => exact ⟨[], rfl, rfl, by simp⟩
  | succ n ih =>
    obtain ⟨v, hv, hlt⟩ := hr i (le_refl i) (by omega)
    obtain ⟨b, hb, hlen, hmem⟩ := ih (i + 1) (fun j h1 h2 => hr j (by omega) (by omega))
    have hv66 : v < charSet.length := by rw [charSet_length]; exact hlt
    refine ⟨charSet[v] :: b, ?_, by simp [hlen], ?_⟩
    · simp only [fillLoop, hv, List.getElem?_eq_getElem hv66, hb, Option.map_some']
    · intro c hc
      rcases List.mem_cons.1 hc with h | h
      · rw [h]; exact List.getElem_mem hv66
      · exact hmem c h

theorem generateCodeChallenge_some (allocLimit : Nat) (randInt : Nat → Option Nat) (l : Int)
    (hl : 0 ≤ l) (hle : l ≤ (allocLimit : Int))
    (hr : ∀ i, i < l.toNat → ∃ v, randInt i = some v ∧ v < 66) :
    ∃ b, generateCodeChallenge allocLimit randInt l = some b
      ∧ (b.length : Int) = l
      ∧ ∀ c ∈ b, c ∈ charSet ∧ isUnreservedChar c = true := by
  obtain ⟨b, hb, hlen, hmem⟩ := fillLoop_ok randInt l.toNat 0
    (fun j _ h2 => hr j (by omega))
  refine ⟨b, ?_, ?_, ?_⟩
  · unfold generateCodeChallenge makeBytes
    rw [if_neg (by omega)]
    exact hb
  · rw [hlen]
    exact Int.toNat_of_nonneg hl
  · intro c hc
    exact ⟨hmem c hc, charSet_unreserved c (hmem c hc)⟩

theorem generateCodeChallenge_none_of_gt (allocLimit : Nat) (randInt : Nat → Option Nat)
    (l : Int) (h : l > (allocLimit : Int)) : generateCodeChallenge allocLimit randInt l = none := by
  unfold generateCodeChallenge makeBytes
  rw [if_pos (Or.inr h)]

/-! ### Lemmas on the challenge encoding -/

theorem encodeByte_mem (v : Nat) : encodeByte (v &&& 0x3F) ∈ encodeURL := by
  have h : v &&& 0x3F < encodeURL.length := by
    have h1 : v &&& 0x3F ≤ 0x3F := Nat.and_le_right
    have h2 : encodeURL.length = 64 := by decide
    omega
  unfold encodeByte
  rw [List.getD_eq_getElem _ _ h]
  exact List.getElem_mem h

theorem encodeURL_base64url : ∀ c ∈ encodeURL, isBase64URLChar c = true ∧ c ≠ '=' := by decide

theorem rawURLEncoding_mem (src : List Nat) : ∀ c ∈ rawURLEncoding src, c ∈ encodeURL := by
  unfold rawURLEncoding
  induction src using encodeToString.induct none with
  | case1 a b c rest ih =>
    intro x hx
    simp only [encodeToString, List.mem_cons] at hx
    rcases hx with h | h | h | h | h
    · rw [h]; exact encodeByte_mem _
    · rw [h]; exact encodeByte_mem _
    · rw [h]; exact encodeByte_mem _
    · rw [h]; exact encodeByte_mem _
    · exact ih x h
  | case2 a b =>
    intro x hx
    simp only [encodeToString, Option.toList, List.append_nil, List.mem_cons,
      List.mem_singleton, List.not_mem_nil, or_false] at hx
    rcases hx with h | h | h
    · rw [h]; exact encodeByte_mem _
    · rw [h]; exact encodeByte_mem _
    · rw [h]; exact encodeByte_mem _
  | case3 a =>
    intro x hx
    simp only [encodeToString, Option.toList, List.append_nil, List.mem_cons,
      List.mem_singleton, List.not_mem_nil, or_false] at hx
    rcases hx with h | h
    · rw [h]; exact encodeByte_mem _
    · rw [h]; exact encodeByte_mem _
  | case4 => simp [encodeToString]

theorem rawURLEncoding_length (src : List Nat) :
    (rawURLEncoding src).length = (4 * src.length + 2) / 3 := by
  unfold rawURLEncoding
  induction src using encodeToString.induct none with
  | case1 a b c rest ih =>
    simp only [encodeToString, List.length_cons, ih]
    omega
  | case2 a b => simp [encodeToString]
  | case3 a => simp [encodeToString]
  | case4 => simp [encodeToString]

theorem urlEncoding_eq (src : List Nat) :
    urlEncoding src = rawURLEncoding src ++ List.replicate ((3 - src.length % 3) % 3) '=' := by
  unfold urlEncoding rawURLEncoding
  induction src using encodeToString.induct none with
  | case1 a b c rest ih =>
    simp only [encodeToString, List.length_cons, List.cons_append, List.cons.injEq, true_and]
    rw [ih]
    congr 2
    omega
  | case2 a b => simp [encodeToString, List.replicate]
  | case3 a => simp [encodeToString, List.replicate]
  | case4 => simp [encodeToString]

theorem trimRight_append_replicate (xs : List Char) (k : Nat) (p : Char)
    (hx : ∀ c ∈ xs, c ≠ p) : trimRight (xs ++ List.replicate k p) [p] = xs := by
  unfold trimRight
  rw [List.reverse_append, List.reverse_replicate]
  have hdrop : ∀ (n : Nat) (ys : List Char), (∀ c ∈ ys, c ≠ p) →
      (List.replicate n p ++ ys).dropWhile (fun c => [p].contains c) = ys := by
    intro n
    induction n with
    | zero =>
      intro ys hys
      cases ys with
      | nil => rfl
      | cons y ys =>
        have hy : y ≠ p := hys y (List.mem_cons_self _ _)
        simp [List.dropWhile, hy]
    | succ n ih =>
      intro ys hys
      simp only [List.replicate_succ, List.cons_append]
      rw [List.dropWhile_cons]
      simp only [List.contains_cons, beq_self_eq_true, Bool.true_or, if_true]
      exact ih ys hys
  rw [hdrop k xs.reverse (fun c hc => hx c (List.mem_reverse.1 hc))]
  exact List.reverse_reverse xs

/-! ### Lemmas on the worker pool -/

theorem Pool.finishAt_of_lt {τ : Type} (k : Nat) (p : Pool τ) (hk : k < p.running.length) :
    p.finishAt k = { p with running := p.running.eraseIdx k,
                            finished := p.finished ++ [p.running[k]] } := by
  unfold Pool.finishAt
  rw [List.getElem?_eq_getElem hk]

theorem Pool.finishAt_pending {τ : Type} (k : Nat) (p : Pool τ) (hk : k < p.running.length) :
    (p.finishAt k).pending + 1 = p.pending := by
  rw [Pool.finishAt_of_lt k p hk]
  simp only [Pool.pending, List.length_eraseIdx, if_pos hk]
  omega

theorem Pool.finishAt_queue {τ : Type} (k : Nat) (p : Pool τ) :
    (p.finishAt k).queue = p.queue ∧ (p.finishAt k).started = p.started := by
  unfold Pool.finishAt
  split <;> exact ⟨rfl, rfl⟩

theorem Pool.finishAt_perm {τ : Type} (k : Nat) (p : Pool τ) :
    ((p.finishAt k).finished ++ (p.finishAt k).running).Perm (p.finished ++ p.running) := by
  by_cases hk : k < p.running.length
  · rw [Pool.finishAt_of_lt k p hk]
    simp only [List.append_assoc, List.singleton_append]
    apply List.Perm.append_left
    have h1 : p.running = p.running.take k ++ p.running[k] :: p.running.drop (k + 1) := by
      rw [← List.drop_eq_getElem_cons hk, List.take_append_drop]
    have h2 : p.running.eraseIdx k = p.running.take k ++ p.running.drop (k + 1) :=
      List.eraseIdx_eq_take_drop_succ _ _
    rw [h2]
    conv_rhs => rw [h1]
    exact List.perm_middle.symm
  · unfold Pool.finishAt
    rw [List.getElem?_eq_none (by omega)]

theorem Pool.step_pending {τ : Type} (maxWorkers choice : Nat) (p : Pool τ)
    (hw : 0 < maxWorkers) (hp : p.pending ≠ 0) :
    (p.step maxWorkers choice).pending + 1 = p.pending := by
  unfold Pool.step
  split
  · rename_i t rest hq
    split
    · split
      · simp only [Pool.pending, hq, List.length_cons, List.length_append, List.length_nil]
        omega
      · rename_i k hk
        apply Pool.finishAt_pending
        have := Nat.mod_lt choice (Nat.succ_pos p.running.length)
        simp only [Nat.succ_eq_add_one] at this
        omega
    · apply Pool.finishAt_pending
      apply Nat.mod_lt
      omega
  · rename_i hq
    apply Pool.finishAt_pending
    apply Nat.mod_lt
    simp only [Pool.pending, hq, List.length_nil] at hp
    omega

theorem Pool.step_of_pending_zero {τ : Type} (maxWorkers choice : Nat) (p : Pool τ)
    (hp : p.pending = 0) : p.step maxWorkers choice = p := by
  have hq : p.queue = [] := List.length_eq_zero.1 (by unfold Pool.pending at hp; omega)
  have hr : p.running = [] := List.length_eq_zero.1 (by unfold Pool.pending at hp; omega)
  unfold Pool.step
  rw [hq]
  simp only [Pool.finishAt, hr, List.length_nil, List.getElem?_nil]

theorem Pool.step_started_queue {τ : Type} (maxWorkers choice : Nat) (p : Pool τ) :
    (p.step maxWorkers choice).started ++ (p.step maxWorkers choice).queue
      = p.started ++ p.queue := by
  unfold Pool.step
  split
  · rename_i t rest hq
    split
    · split
      · simp [hq]
      · rw [(Pool.finishAt_queue _ p).1, (Pool.finishAt_queue _ p).2]
    · rw [(Pool.finishAt_queue _ p).1, (Pool.finishAt_queue _ p).2]
  · rw [(Pool.finishAt_queue _ p).1, (Pool.finishAt_queue _ p).2]

theorem Pool.step_perm {τ : Type} (maxWorkers choice : Nat) (p : Pool τ)
    (h : (p.finished ++ p.running).Perm p.started) :
    ((p.step maxWorkers choice).finished ++ (p.step maxWorkers choice).running).Perm
      (p.step maxWorkers choice).started := by
  unfold Pool.step
  split
  · rename_i t rest hq
    split
    · split
      · simp only [← List.append_assoc]
        exact List.Perm.append_right [t] h
      · rw [(Pool.finishAt_queue _ p).2]
        exact (Pool.finishAt_perm _ p).trans h
    · rw [(Pool.finishAt_queue _ p).2]
      exact (Pool.finishAt_perm _ p).trans h
  · rw [(Pool.finishAt_queue _ p).2]
    exact (Pool.finishAt_perm _ p).trans h

theorem Pool.run_spec {τ : Type} (maxWorkers : Nat) (sched : Nat → Nat) (hw : 0 < maxWorkers)
    (fuel t : Nat) (p : Pool τ) (h : (p.finished ++ p.running).Perm p.started) :
    (Pool.run maxWorkers sched fuel t p).pending = p.pending - fuel
    ∧ (Pool.run maxWorkers sched fuel t p).started ++ (Pool.run maxWorkers sched fuel t p).queue
        = p.started ++ p.queue
    ∧ ((Pool.run maxWorkers sched fuel t p).finished
        ++ (Pool.run maxWorkers sched fuel t p).running).Perm
        (Pool.run maxWorkers sched fuel t p).started := by
  induction fuel generalizing t p with
  | zero => exact ⟨rfl, rfl, h⟩
  | succ fuel ih =>
    simp only [Pool.run]
    obtain ⟨h1, h2, h3⟩ := ih (t + 1) (p.step maxWorkers (sched t))
      (Pool.step_perm maxWorkers (sched t) p h)
    refine ⟨?_, ?_, h3⟩
    · rw [h1]
      by_cases hp : p.pending = 0
      · rw [Pool.step_of_pending_zero _ _ p hp]; omega
      · have := Pool.step_pending maxWorkers (sched t) p hw hp
        omega
    · rw [h2, Pool.step_started_queue]

/-- Once `fuel` covers the pending decisions the pool is drained: every submitted
task was begun exactly once, in submission order, and every one returned. -/
theorem Pool.run_submitAll {τ : Type} (maxWorkers : Nat) (sched : Nat → Nat)
    (hw : 0 < maxWorkers) (tasks : List τ) (fuel : Nat) (hf : 2 * tasks.length ≤ fuel) :
    (Pool.run maxWorkers sched fuel 0 (Pool.submitAll tasks)).queue = []
    ∧ (Pool.run maxWorkers sched fuel 0 (Pool.submitAll tasks)).running = []
    ∧ (Pool.run maxWorkers sched fuel 0 (Pool.submitAll tasks)).started = tasks
    ∧ (Pool.run maxWorkers sched fuel 0 (Pool.submitAll tasks)).finished.Perm tasks := by
  obtain ⟨h1, h2, h3⟩ := Pool.run_spec maxWorkers sched hw fuel 0 (Pool.submitAll tasks)
    (by simp [Pool.submitAll])
  have hp : (Pool.run maxWorkers sched fuel 0 (Pool.submitAll tasks)).pending = 0 := by
    rw [h1]; simp only [Pool.pending, Pool.submitAll, List.length_nil]; omega
  have hq : (Pool.run maxWorkers sched fuel 0 (Pool.submitAll tasks)).queue = [] :=
    List.length_eq_zero.1 (by unfold Pool.pending at hp; omega)
  have hr : (Pool.run maxWorkers sched fuel 0 (Pool.submitAll tasks)).running = [] :=
    List.length_eq_zero.1 (by unfold Pool.pending at hp; omega)
  rw [hq, List.append_nil] at h2
  rw [hr, List.append_nil] at h3
  have hs : (Pool.run maxWorkers sched fuel 0 (Pool.submitAll tasks)).started = tasks := by
    rw [h2]; simp [Pool.submitAll]
  rw [hs] at h3
  exact ⟨hq, hr, hs, h3⟩

theorem Pool.stopWait_submitAll {τ : Type} (maxWorkers : Nat) (sched : Nat → Nat)
    (hw : 0 < maxWorkers) (tasks : List τ) :
    ((Pool.submitAll tasks).stopWait maxWorkers sched).queue = []
    ∧ ((Pool.submitAll tasks).stopWait maxWorkers sched).running = []
    ∧ ((Pool.submitAll tasks).stopWait maxWorkers sched).started = tasks
    ∧ ((Pool.submitAll tasks).stopWait maxWorkers sched).finished.Perm tasks := by
  unfold Pool.stopWait
  exact Pool.run_submitAll maxWorkers sched hw tasks _
    (by simp [Pool.pending, Pool.submitAll])

/-! ## Results on the batching of liked tracks -/

theorem ceil_div_fifty (L : Nat) : ⌈(L : ℚ) / 50⌉₊ = (L + 49) / 50 := by
  rcases Nat.eq_zero_or_pos ((L + 49) / 50) with h0 | hpos
  · have hL : L = 0 := by omega
    subst hL
    simp
  · rw [Nat.ceil_eq_iff (by omega)]
    have h1 : 50 * ((L + 49) / 50) ≤ L + 49 := Nat.mul_div_le _ _
    have h2 : L + 49 < 50 * ((L + 49) / 50) + 50 := by
      have := Nat.lt_div_mul_add (a := L + 49) (b := 50) (by norm_num)
      omega
    constructor
    · rw [lt_div_iff₀ (by norm_num)]
      have h3 : ((L + 49) / 50 - 1) * 50 < L := by omega
      have h4 : (((((L + 49) / 50 - 1) * 50 : ℕ)) : ℚ) < (L : ℚ) := by exact_mod_cast h3
      have h5 : ((((L + 49) / 50 - 1 : ℕ)) : ℚ) * 50 = (((((L + 49) / 50 - 1) * 50 : ℕ)) : ℚ) := by
        push_cast
        ring
      rw [h5]
      exact h4
    · rw [div_le_iff₀ (by norm_num)]
      have h3 : L ≤ (L + 49) / 50 * 50 := by omega
      exact_mod_cast h3

/-- C1: the batches built by the chunking loop of the liked-tracks purge, concatenated
in order, are exactly `toPurge`: no ID is lost, duplicated or reordered. -/
theorem makeBatches_flatten {α : Type} (toPurge : List α) :
    (makeBatches toPurge).flatten = toPurge := by
  unfold makeBatches
  rw [chunkLoop_flatten]
  simp

/-- C2: for `toPurge` of length `L` the chunking loop produces exactly `⌈L/50⌉`
batches (none for `L = 0`), each non-empty and of at most 50 IDs; `L = 50` gives the
single batch `toPurge`, and `L = 51` gives two batches of sizes 50 and 1. -/
theorem makeBatches_count_and_sizes {α : Type} (toPurge : List α) :
    (makeBatches toPurge).length = ⌈(toPurge.length : ℚ) / 50⌉₊
    ∧ (toPurge.length = 0 → makeBatches toPurge = [])
    ∧ (∀ b ∈ makeBatches toPurge, 0 < b.length ∧ b.length ≤ 50)
    ∧ (toPurge.length = 50 → makeBatches toPurge = [toPurge])
    ∧ (toPurge.length = 51 →
        makeBatches toPurge = [toPurge.take 50, toPurge.drop 50]
        ∧ (makeBatches toPurge).map List.length = [50, 1]) := by
  have hlen : (makeBatches toPurge).length = (toPurge.length + 49) / 50 := by
    unfold makeBatches
    rw [chunkLoop_length]
    simp
  refine ⟨?_, ?_, ?_, ?_, ?_⟩
  · rw [ceil_div_fifty]
    exact hlen
  · intro h0
    apply List.length_eq_zero.1
    rw [hlen, h0]
  · intro b hb
    rcases chunkLoop_mem toPurge 0 [] b hb with h | h
    · exact absurd h (List.not_mem_nil b)
    · exact h
  · intro h50
    exact makeBatches_of_le toPurge (by omega) (by omega)
  · intro h51
    have h := makeBatches_of_le_hundred toPurge (by omega) (by omega)
    refine ⟨h, ?_⟩
    rw [h]
    simp [List.length_take, List.length_drop, h51]

theorem makeBatches_count_and_sizes_witness :
    (List.range 51).length = 51
    ∧ makeBatches (List.range 51) = [(List.range 51).take 50, (List.range 51).drop 50]
    ∧ (makeBatches (List.range 51)).map List.length = [50, 1] :=
  ⟨by decide, (makeBatches_count_and_sizes (List.range 51)).2.2.2.2 (by decide)⟩

/-! ## Results on the PKCE verifier and challenge -/

/-- C3 (counterexample): with the allocation maximum of the runtime and a random
source whose every value lies in `[0, 66)`, `generateCodeChallenge(1 << 62)` panics
in `make([]byte, l)`: for this `l > 0` no byte slice is returned. -/
theorem generateCodeChallenge_huge_length_panics :
    (0 : Int) < 2 ^ 62
    ∧ (∀ i : Nat, ∃ v, (fun j : Nat => some (j % 66)) i = some v ∧ v < 66)
    ∧ generateCodeChallenge maxAlloc (fun j => some (j % 66)) (2 ^ 62) = none
    ∧ ¬ ∃ b, generateCodeChallenge maxAlloc (fun j => some (j % 66)) (2 ^ 62) = some b
          ∧ (b.length : Int) = 2 ^ 62 := by
  have hnone : generateCodeChallenge maxAlloc (fun j => some (j % 66)) (2 ^ 62) = none :=
    generateCodeChallenge_none_of_gt maxAlloc _ (2 ^ 62) (by norm_num [maxAlloc])
  refine ⟨by norm_num, fun i => ⟨i % 66, rfl, Nat.mod_lt i (by decide)⟩, hnone, ?_⟩
  rintro ⟨b, hb, _⟩
  rw [hnone] at hb
  exact absurd hb (by simp)

/-- C3 (amended): for every `l > 0` within the allocation limit and every sequence of
random values in `[0, 66)`, `generateCodeChallenge(l)` returns (without a panic, so
without an out-of-range index) exactly `l` bytes, each a member of the 66-character
alphabet `a-z A-Z 0-9 _ . - ~`. -/
theorem generateCodeChallenge_length_and_alphabet (allocLimit : Nat)
    (randInt : Nat → Option Nat) (l : Int)
    (hl : 0 < l) (hle : l ≤ (allocLimit : Int))
    (hr : ∀ i, i < l.toNat → ∃ v, randInt i = some v ∧ v < 66) :
    charSet.length = 66
    ∧ ∃ b, generateCodeChallenge allocLimit randInt l = some b
        ∧ (b.length : Int) = l
        ∧ ∀ c ∈ b, c ∈ charSet ∧ isUnreservedChar c = true :=
  ⟨charSet_length, generateCodeChallenge_some allocLimit randInt l (le_of_lt hl) hle hr⟩

theorem generateCodeChallenge_length_and_alphabet_witness :
    (0 : Int) < 3 ∧ (3 : Int) ≤ (maxAlloc : Int)
    ∧ charSet.length = 66
    ∧ ∃ b, generateCodeChallenge maxAlloc (fun i => some (65 - i)) 3 = some b
        ∧ (b.length : Int) = 3
        ∧ ∀ c ∈ b, c ∈ charSet ∧ isUnreservedChar c = true :=
  ⟨by decide, by norm_num [maxAlloc],
   generateCodeChallenge_length_and_alphabet maxAlloc (fun i => some (65 - i)) 3 (by decide)
     (by norm_num [maxAlloc]) (fun i _ => ⟨65 - i, rfl, by omega⟩)⟩

/-- C4: the `code_challenge` computed by `authenticate` is a function of the verifier
alone (through its SHA-256 digest); for a 32-byte digest, trimming `=` from the
padded URL-safe base64 encoding gives exactly the unpadded base64url encoding: 43
characters over `A-Z a-z 0-9 - _`, none of them `=`. -/
theorem hashedVerifier_eq_rawURLEncoding (sha256 : List Char → List Nat)
    (challenge : List Char) (h32 : (sha256 challenge).length = 32) :
    hashedVerifier sha256 challenge = rawURLEncoding (sha256 challenge)
    ∧ (hashedVerifier sha256 challenge).length = 43
    ∧ ∀ c ∈ hashedVerifier sha256 challenge, isBase64URLChar c = true ∧ c ≠ '=' := by
  have hmem : ∀ c ∈ rawURLEncoding (sha256 challenge), isBase64URLChar c = true ∧ c ≠ '=' :=
    fun c hc => encodeURL_base64url c (rawURLEncoding_mem _ c hc)
  have heq : hashedVerifier sha256 challenge = rawURLEncoding (sha256 challenge) := by
    unfold hashedVerifier
    rw [urlEncoding_eq]
    exact trimRight_append_replicate _ _ '=' (fun c hc => (hmem c hc).2)
  refine ⟨heq, ?_, ?_⟩
  · rw [heq, rawURLEncoding_length, h32]
  · rw [heq]
    exact hmem

theorem hashedVerifier_eq_rawURLEncoding_witness :
    ((fun _ => List.range 32) "v".data : List Nat).length = 32
    ∧ hashedVerifier (fun _ => List.range 32) "v".data
        = rawURLEncoding ((fun _ => List.range 32) "v".data)
    ∧ (hashedVerifier (fun _ => List.range 32) "v".data).length = 43
    ∧ ∀ c ∈ hashedVerifier (fun _ => List.range 32) "v".data,
        isBase64URLChar c = true ∧ c ≠ '=' :=
  ⟨by decide, hashedVerifier_eq_rawURLEncoding (fun _ => List.range 32) "v".data (by decide)⟩

/-! ## Results on the authorization flow -/

theorem authenticate_returns (env : AuthEnv) (state : String) (hs : env.newState = some state)
    (hr : ∀ i, i < 100 → ∃ v, env.randInt i = some v ∧ v < 66) :
    ∃ challenge, generateCodeChallenge maxAlloc env.randInt 100 = some challenge
      ∧ ∃ r, authenticate env = some r
        ∧ r.events.take 2
            = [.authCodeURL state (hashedVerifier env.sha256 challenge), .listenAndServe]
        ∧ (r.events = [.authCodeURL state (hashedVerifier env.sha256 challenge), .listenAndServe]
            ∧ r.tok = none
            ∧ ((∃ e, env.listenErr = some e ∧ r.err = some (.captureFailed e))
              ∨ (env.listenErr = none ∧ ∃ e, env.shutdownErr = some e
                  ∧ r.err = some (.captureFailed e))
              ∨ (env.listenErr = none ∧ env.shutdownErr = none ∧ env.gotState ≠ state
                  ∧ r.err = some (.stateMismatch state env.gotState)))
          ∨ (r.events = [.authCodeURL state (hashedVerifier env.sha256 challenge),
                .listenAndServe, .exchange env.gotCode challenge]
            ∧ env.listenErr = none ∧ env.shutdownErr = none ∧ env.gotState = state
            ∧ ((∃ e, env.exchange env.gotCode challenge = .error e
                  ∧ r.tok = none ∧ r.err = some (.exchangeFailed e))
              ∨ (∃ token, env.exchange env.gotCode challenge = .ok token
                  ∧ r.tok = some token ∧ r.err = none)))) := by
  obtain ⟨challenge, hc, _, _⟩ :=
    generateCodeChallenge_some maxAlloc env.randInt 100 (by decide)
      (by norm_num [maxAlloc]) (fun i hi => hr i (by simpa using hi))
  refine ⟨challenge, hc, ?_⟩
  unfold authenticate
  rw [hs]
  simp only [hc]
  cases hl : env.listenErr with
  | some e => exact ⟨_, rfl, rfl, Or.inl ⟨rfl, rfl, Or.inl ⟨e, rfl, rfl⟩⟩⟩
  | none =>
    cases hsd : env.shutdownErr with
    | some e => exact ⟨_, rfl, rfl, Or.inl ⟨rfl, rfl, Or.inr (Or.inl ⟨rfl, e, rfl, rfl⟩)⟩⟩
    | none =>
      by_cases hst : env.gotState = state
      · rw [if_neg (not_not.2 hst)]
        cases hx : env.exchange env.gotCode challenge with
        | error e =>
          exact ⟨_, rfl, rfl, Or.inr ⟨rfl, rfl, rfl, hst, Or.inl ⟨e, rfl, rfl, rfl⟩⟩⟩
        | ok token =>
          exact ⟨_, rfl, rfl, Or.inr ⟨rfl, rfl, rfl, hst, Or.inr ⟨token, rfl, rfl, rfl⟩⟩⟩
      · rw [if_pos hst]
        exact ⟨_, rfl, rfl, Or.inl ⟨rfl, rfl, Or.inr (Or.inr ⟨rfl, rfl, hst, rfl⟩)⟩⟩

/-- C5: when the state received on the callback differs from the state generated
for the attempt, `authenticate` returns an error and no token and issues no
`cfg.Exchange`; after a clean listener shutdown that error is the state mismatch;
and an exchange is issued only when the two states are equal. -/
theorem authenticate_state_mismatch_no_exchange (env : AuthEnv) (state : String)
    (hs : env.newState = some state)
    (hr : ∀ i, i < 100 → ∃ v, env.randInt i = some v ∧ v < 66) :
    ∃ r, authenticate env = some r
      ∧ (env.gotState ≠ state →
          r.tok = none ∧ r.err ≠ none ∧ ∀ code verifier, .exchange code verifier ∉ r.events)
      ∧ (env.gotState ≠ state → env.listenErr = none → env.shutdownErr = none →
          r.err = some (.stateMismatch state env.gotState))
      ∧ (∀ code verifier, .exchange code verifier ∈ r.events → env.gotState = state) := by
  obtain ⟨challenge, _, r, hr1, _, hcases⟩ := authenticate_returns env state hs hr
  refine ⟨r, hr1, ?_, ?_, ?_⟩
  · intro hne
    rcases hcases with ⟨hev, htok, herr⟩ | ⟨_, _, _, heq, _⟩
    · refine ⟨htok, ?_, ?_⟩
      · rcases herr with ⟨e, _, h⟩ | ⟨_, e, _, h⟩ | ⟨_, _, _, h⟩ <;> rw [h] <;> simp
      · intro code verifier hmem
        rw [hev] at hmem
        simp at hmem
    · exact absurd heq hne
  · intro hne hl hsd
    rcases hcases with ⟨_, _, herr⟩ | ⟨_, _, _, heq, _⟩
    · rcases herr with ⟨e, h, _⟩ | ⟨_, e, h, _⟩ | ⟨_, _, _, h⟩
      · rw [hl] at h; exact absurd h (by simp)
      · rw [hsd] at h; exact absurd h (by simp)
      · exact h
    · exact absurd heq hne
  · intro code verifier hmem
    rcases hcases with ⟨hev, _, _⟩ | ⟨_, _, _, heq, _⟩
    · rw [hev] at hmem
      simp at hmem
    · exact heq

theorem authenticate_state_mismatch_no_exchange_witness :
    (sampleAuthEnv "X").gotState ≠ "Y"
    ∧ ∃ r, authenticate (sampleAuthEnv "X") = some r
      ∧ ((sampleAuthEnv "X").gotState ≠ "Y" →
          r.tok = none ∧ r.err ≠ none ∧ ∀ code verifier, .exchange code verifier ∉ r.events)
      ∧ ((sampleAuthEnv "X").gotState ≠ "Y" → (sampleAuthEnv "X").listenErr = none →
          (sampleAuthEnv "X").shutdownErr = none →
          r.err = some (.stateMismatch "Y" (sampleAuthEnv "X").gotState))
      ∧ (∀ code verifier, .exchange code verifier ∈ r.events →
          (sampleAuthEnv "X").gotState = "Y") :=
  ⟨by decide,
   authenticate_state_mismatch_no_exchange (sampleAuthEnv "X") "Y" rfl
     (fun i _ => ⟨i % 66, rfl, Nat.mod_lt i (by decide)⟩)⟩

/-! ## Results on the client provider -/

theorem loadCachedToken_spotifyClient (env : ClientEnv) (w : World) :
    (loadCachedToken env w).2.spotifyClient = w.spotifyClient := by
  unfold loadCachedToken
  split
  · rfl
  · split
    · rfl
    · split
      · rfl
      · split <;> rfl

theorem storeCachedToken_spotifyClient (env : ClientEnv) (tok : Option Token) (w : World) :
    (storeCachedToken env tok w).spotifyClient = w.spotifyClient
    ∧ (storeCachedToken env tok w).nextAddr = w.nextAddr := by
  unfold storeCachedToken
  split
  · exact ⟨rfl, rfl⟩
  · split
    · exact ⟨rfl, rfl⟩
    · split
      · exact ⟨rfl, rfl⟩
      · split
        · exact ⟨rfl, rfl⟩
        · split <;> exact ⟨rfl, rfl⟩

theorem loadCachedToken_nextAddr (env : ClientEnv) (w : World) :
    (loadCachedToken env w).2.nextAddr = w.nextAddr := by
  unfold loadCachedToken
  split
  · rfl
  · split
    · rfl
    · split
      · rfl
      · split <;> rfl

/-- Every outcome of the write-locked section: an error with the slot untouched, or
a published client that is also the one returned. -/
theorem getClientSlow_cases (env : ClientEnv) (w : World) (res : ClientResult) (w' : World)
    (h : getClientSlow env w = some (res, w')) :
    (res.c = none ∧ w'.spotifyClient = w.spotifyClient
      ∧ ((env.clientID = "" ∧ res.err = some .clientIDNotSet)
        ∨ (env.clientID ≠ ""
            ∧ (loadCachedToken env
                ⟨w.spotifyClient, env.clientID, w.tokenFile, w.nextAddr,
                  w.events ++ [.getenv]⟩).1 = none
            ∧ ∃ r e, authenticate env.auth = some r ∧ r.err = some e
                ∧ res.err = some (.authFailed e))))
    ∨ (res.err = none ∧ env.clientID ≠ ""
      ∧ ∃ tok, res.c = some ⟨w.nextAddr, tok, true⟩
          ∧ w'.spotifyClient = some ⟨w.nextAddr, tok, true⟩) := by
  unfold getClientSlow at h
  by_cases hid : env.clientID = ""
  · simp only [hid, if_true, Option.some.injEq, Prod.mk.injEq] at h
    obtain ⟨h1, h2⟩ := h
    subst h1 h2
    exact Or.inl ⟨rfl, rfl, Or.inl ⟨hid, rfl⟩⟩
  · simp only [hid, if_false] at h
    obtain ⟨w1, hw1⟩ : ∃ w1 : World, World.mk w.spotifyClient env.clientID w.tokenFile
        w.nextAddr (w.events ++ [ClientEvent.getenv]) = w1 := ⟨_, rfl⟩
    rw [hw1] at h
    have hsc := loadCachedToken_spotifyClient env w1
    have hna := loadCachedToken_nextAddr env w1
    have hw1s : w1.spotifyClient = w.spotifyClient := by rw [← hw1]
    have hw1n : w1.nextAddr = w.nextAddr := by rw [← hw1]
    rcases hload : loadCachedToken env w1 with ⟨cached, w2⟩
    rw [hload] at h hsc hna
    simp only at hsc hna
    cases cached with
    | some tok =>
      simp only [publishClient, Option.some.injEq, Prod.mk.injEq] at h
      obtain ⟨h1, h2⟩ := h
      subst h1 h2
      right
      refine ⟨rfl, hid, some tok, ?_, ?_⟩
      · simp only [hna, hw1n]
      · simp only [hna, hw1n]
    | none =>
      simp only at h
      cases hauth : authenticate env.auth with
      | none => rw [hauth] at h; simp at h
      | some r =>
        rw [hauth] at h
        simp only at h
        cases herr : r.err with
        | some e =>
          rw [herr] at h
          simp only [Option.some.injEq, Prod.mk.injEq] at h
          obtain ⟨h1, h2⟩ := h
          subst h1 h2
          left
          refine ⟨rfl, ?_, Or.inr ⟨hid, ?_, r, e, rfl, herr, rfl⟩⟩
          · simp only [hsc, hw1s]
          · rw [hw1, hload]
        | none =>
          rw [herr] at h
          simp only [publishClient, Option.some.injEq, Prod.mk.injEq] at h
          obtain ⟨h1, h2⟩ := h
          subst h1 h2
          right
          have hst := storeCachedToken_spotifyClient env r.tok
            { w2 with events := w2.events ++ [ClientEvent.authenticate] }
          refine ⟨rfl, hid, r.tok, ?_, ?_⟩
          · rw [hst.2]
            simp only [hna, hw1n]
          · rw [hst.2]
            simp only [hna, hw1n]

/-- C10: whenever `getClient` returns an error it returns no client and leaves
`spotifyClient` unchanged and unset. An empty `SPOTIFY_CLIENT_ID` fails right after
the environment lookup, before any cache read or authentication; otherwise there
was no usable cached token and `authenticate` failed. The slot is written only on
the success path, with the constructed client that is also returned. The
write-locked section on its own never changes the slot when it returns an error. -/
theorem getClient_error_leaves_slot_unset (env : ClientEnv) (w : World) :
    (w.spotifyClient = none → env.clientID = "" →
      getClient env w
        = some (⟨none, some .clientIDNotSet⟩, { w with events := w.events ++ [.getenv] }))
    ∧ (∀ res w', getClient env w = some (res, w') → res.err ≠ none →
        res.c = none ∧ w'.spotifyClient = w.spotifyClient ∧ w'.spotifyClient = none
        ∧ ((env.clientID = "" ∧ res.err = some .clientIDNotSet)
          ∨ (env.clientID ≠ ""
              ∧ (loadCachedToken env
                  ⟨w.spotifyClient, env.clientID, w.tokenFile, w.nextAddr,
                    w.events ++ [.getenv]⟩).1 = none
              ∧ ∃ r e, authenticate env.auth = some r ∧ r.err = some e
                  ∧ res.err = some (.authFailed e))))
    ∧ (∀ res w', getClient env w = some (res, w') → w'.spotifyClient ≠ w.spotifyClient →
        res.err = none
        ∧ ∃ tok, res.c = some ⟨w.nextAddr, tok, true⟩ ∧ w'.spotifyClient = res.c)
    ∧ (∀ res w', getClientSlow env w = some (res, w') → res.err ≠ none →
        res.c = none ∧ w'.spotifyClient = w.spotifyClient) := by
  refine ⟨?_, ?_, ?_, ?_⟩
  · intro hw hid
    unfold getClient getClientFast
    rw [hw]
    simp only [getClientSlow, hid, if_true, hw]
  · intro res w' h herr
    unfold getClient getClientFast at h
    cases hw : w.spotifyClient with
    | some c =>
      rw [hw] at h
      simp only [Option.some.injEq, Prod.mk.injEq] at h
      obtain ⟨h1, _⟩ := h
      subst h1
      exact absurd rfl herr
    | none =>
      rw [hw] at h
      simp only at h
      rcases getClientSlow_cases env w res w' h with ⟨hc, hslot, hcause⟩ | ⟨hnone, _⟩
      · rw [hw] at hcause
        exact ⟨hc, hslot.trans hw, hslot.trans hw, hcause⟩
      · exact absurd hnone herr
  · intro res w' h hne
    unfold getClient getClientFast at h
    cases hw : w.spotifyClient with
    | some c =>
      rw [hw] at h
      simp only [Option.some.injEq, Prod.mk.injEq] at h
      obtain ⟨_, h2⟩ := h
      subst h2
      exact absurd rfl hne
    | none =>
      rw [hw] at h
      simp only at h
      rcases getClientSlow_cases env w res w' h with ⟨_, hslot, _⟩ | ⟨hnone, _, tok, hc, hslot⟩
      · exact absurd hslot hne
      · exact ⟨hnone, tok, hc, hslot.trans hc.symm⟩
  · intro res w' h herr
    rcases getClientSlow_cases env w res w' h with ⟨hc, hslot, _⟩ | ⟨hnone, _⟩
    · exact ⟨hc, hslot⟩
    · exact absurd hnone herr

theorem getClient_error_leaves_slot_unset_witness :
    getClient (sampleClientEnv "id" "X") initialWorld
      = some (⟨none, some (.authFailed (.stateMismatch "Y" "X"))⟩,
          ⟨none, "id", none, 0, [.getenv, .userHomeDir, .authenticate]⟩)
    ∧ (⟨none, some (.authFailed (.stateMismatch "Y" "X"))⟩ : ClientResult).c = none
    ∧ (⟨none, "id", none, 0, [.getenv, .userHomeDir, .authenticate]⟩ : World).spotifyClient
        = initialWorld.spotifyClient
    ∧ (⟨none, "id", none, 0, [.getenv, .userHomeDir, .authenticate]⟩ : World).spotifyClient
        = none :=
  ⟨by decide,
   ((getClient_error_leaves_slot_unset (sampleClientEnv "id" "X") initialWorld).2.1
      ⟨none, some (.authFailed (.stateMismatch "Y" "X"))⟩
      ⟨none, "id", none, 0, [.getenv, .userHomeDir, .authenticate]⟩
      (by decide) (by decide)).1,
   ((getClient_error_leaves_slot_unset (sampleClientEnv "id" "X") initialWorld).2.1
      ⟨none, some (.authFailed (.stateMismatch "Y" "X"))⟩
      ⟨none, "id", none, 0, [.getenv, .userHomeDir, .authenticate]⟩
      (by decide) (by decide)).2.1,
   ((getClient_error_leaves_slot_unset (sampleClientEnv "id" "X") initialWorld).2.1
      ⟨none, some (.authFailed (.stateMismatch "Y" "X"))⟩
      ⟨none, "id", none, 0, [.getenv, .userHomeDir, .authenticate]⟩
      (by decide) (by decide)).2.2.1⟩

/-- Once a client is published, a call of `getClient` returns that client from the
read-locked section and changes nothing. -/
theorem getClient_after_publish (env : ClientEnv) (w : World) (c : Client)
    (h : w.spotifyClient = some c) : getClient env w = some (⟨some c, none⟩, w) := by
  unfold getClient getClientFast
  rw [h]

/-- C9 (the code at the failing interleaving): two goroutines call `getClient` for
the first time; both pass the read-locked check before either takes the write
lock. The write-locked section, which does not look at `spotifyClient` again, then
runs twice: `authenticate` is called twice, two clients are allocated, and the two
callers return different clients. -/
theorem getClient_concurrent_first_access_initialises_twice :
    runSchedule (sampleClientEnv "id" "Y") [0, 1, 0, 1] (concurrentCallers initialWorld 2)
      = some
          ⟨⟨some ⟨1, some ⟨"access", "refresh"⟩, true⟩, "id", none, 2,
            [.getenv, .userHomeDir, .authenticate, .userHomeDir, .newClient 0,
             .getenv, .userHomeDir, .authenticate, .userHomeDir, .newClient 1]⟩,
           [.returned ⟨some ⟨0, some ⟨"access", "refresh"⟩, true⟩, none⟩,
            .returned ⟨some ⟨1, some ⟨"access", "refresh"⟩, true⟩, none⟩]⟩
    ∧ (runSchedule (sampleClientEnv "id" "Y") [0, 1, 0, 1]
          (concurrentCallers initialWorld 2)).map
        (fun s => slowPathRuns s.world.events) = some 2 := by
  constructor <;> decide

/-! ## Results on the purge commands -/

theorem runPool_spec {Arg : Type} (opFails : Nat → Arg → Bool) (sched : Nat → Nat)
    (items : List Arg) :
    (runPool opFails sched items).err = none
    ∧ (runPool opFails sched items).calls = items
    ∧ (runPool opFails sched items).barMax = some items.length
    ∧ (runPool opFails sched items).barAdds = items.length
    ∧ (runPool opFails sched items).logged.Perm
        ((items.enum.filter (fun task => opFails task.1 task.2)).map (fun task => task.1)) := by
  obtain ⟨_, _, hs, hf⟩ := Pool.stopWait_submitAll 5 sched (by decide) items.enum
  refine ⟨rfl, ?_, rfl, ?_, ?_⟩
  · simp only [runPool, hs]
    exact List.enum_map_snd items
  · simp only [runPool]
    rw [hf.length_eq, List.enum_length]
  · simp only [runPool]
    exact (hf.filter _).map _

theorem purgeLiked_of_recordsRead (env : PurgeEnv trackRow (List SpotifyID))
    (hr : env.recordsRead = true) :
    purgeLiked env
      = if env.dryrun then .early none
        else runPool env.opFails env.sched (makeBatches (likedToPurge env.rows)) := by
  simp only [PurgeEnv.recordsRead, Bool.and_eq_true, bne_iff_ne, ne_eq,
    Option.isNone_iff_eq_none] at hr
  obtain ⟨⟨⟨h1, h2⟩, h3⟩, h4⟩ := hr
  simp only [purgeLiked, h1, h2, h3, h4, if_false]

theorem purgePlaylist_of_recordsRead (env : PurgeEnv playlistRow SpotifyID)
    (hr : env.recordsRead = true) :
    purgePlaylist env
      = if env.dryrun then .early none
        else runPool env.opFails env.sched (playlistsToPurge env.rows) := by
  simp only [PurgeEnv.recordsRead, Bool.and_eq_true, bne_iff_ne, ne_eq,
    Option.isNone_iff_eq_none] at hr
  obtain ⟨⟨⟨h1, h2⟩, h3⟩, h4⟩ := hr
  simp only [purgePlaylist, h1, h2, h3, h4, if_false]

theorem purgeLiked_dryrun_calls (env : PurgeEnv trackRow (List SpotifyID))
    (hd : env.dryrun = true) : (purgeLiked env).calls = [] ∧ (purgeLiked env).barAdds = 0 := by
  unfold purgeLiked
  split
  · exact ⟨rfl, rfl⟩
  · split
    · exact ⟨rfl, rfl⟩
    · split
      · exact ⟨rfl, rfl⟩
      · split
        · exact ⟨rfl, rfl⟩
        · exact ⟨rfl, rfl⟩

theorem purgePlaylist_dryrun_calls (env : PurgeEnv playlistRow SpotifyID)
    (hd : env.dryrun = true) :
    (purgePlaylist env).calls = [] ∧ (purgePlaylist env).barAdds = 0 := by
  unfold purgePlaylist
  split
  · exact ⟨rfl, rfl⟩
  · split
    · exact ⟨rfl, rfl⟩
    · split
      · exact ⟨rfl, rfl⟩
      · split
        · exact ⟨rfl, rfl⟩
        · exact ⟨rfl, rfl⟩

/-- C6: with dry-run enabled the purge commands for liked tracks and for playlists
issue no call of the mutating remote operation, whatever the record set and the
environment, and return nil whenever the record set was read. -/
theorem purge_dryrun_no_remote_calls (envL : PurgeEnv trackRow (List SpotifyID))
    (envP : PurgeEnv playlistRow SpotifyID)
    (hL : envL.dryrun = true) (hP : envP.dryrun = true) :
    (purgeLiked envL).calls = []
    ∧ (purgePlaylist envP).calls = []
    ∧ (envL.recordsRead = true → (purgeLiked envL).err = none)
    ∧ (envP.recordsRead = true → (purgePlaylist envP).err = none) := by
  refine ⟨(purgeLiked_dryrun_calls envL hL).1, (purgePlaylist_dryrun_calls envP hP).1, ?_, ?_⟩
  · intro hr
    rw [purgeLiked_of_recordsRead envL hr, if_pos hL]
    rfl
  · intro hr
    rw [purgePlaylist_of_recordsRead envP hr, if_pos hP]
    rfl

theorem purge_dryrun_no_remote_calls_witness :
    dryRunLikedEnv.dryrun = true ∧ dryRunPlaylistEnv.dryrun = true
    ∧ dryRunLikedEnv.recordsRead = true ∧ dryRunPlaylistEnv.recordsRead = true
    ∧ (purgeLiked dryRunLikedEnv).calls = []
    ∧ (purgePlaylist dryRunPlaylistEnv).calls = []
    ∧ (purgeLiked dryRunLikedEnv).err = none
    ∧ (purgePlaylist dryRunPlaylistEnv).err = none :=
  ⟨rfl, rfl, by decide, by decide,
   (purge_dryrun_no_remote_calls dryRunLikedEnv dryRunPlaylistEnv rfl rfl).1,
   (purge_dryrun_no_remote_calls dryRunLikedEnv dryRunPlaylistEnv rfl rfl).2.1,
   (purge_dryrun_no_remote_calls dryRunLikedEnv dryRunPlaylistEnv rfl rfl).2.2.1 (by decide),
   (purge_dryrun_no_remote_calls dryRunLikedEnv dryRunPlaylistEnv rfl rfl).2.2.2 (by decide)⟩

/-- C7: in a non-dry-run liked-tracks purge that has read its records, for every
pattern of per-batch failures and every scheduling of the five workers, the remote
operation is issued for every batch exactly once (in submission order, failures
neither stopping later batches nor causing a retry), `bar.Add(1)` runs once per
batch so progress ends at `len(batches)` of `len(batches)`, exactly the failing
batches are logged, and `RunE` returns nil. -/
theorem purgeLiked_every_batch_once (env : PurgeEnv trackRow (List SpotifyID))
    (hr : env.recordsRead = true) (hd : env.dryrun = false) :
    (purgeLiked env).calls = makeBatches (likedToPurge env.rows)
    ∧ (purgeLiked env).barMax = some (makeBatches (likedToPurge env.rows)).length
    ∧ (purgeLiked env).barAdds = (makeBatches (likedToPurge env.rows)).length
    ∧ (purgeLiked env).logged.Perm
        (((makeBatches (likedToPurge env.rows)).enum.filter
            (fun task => env.opFails task.1 task.2)).map (fun task => task.1))
    ∧ (purgeLiked env).err = none := by
  rw [purgeLiked_of_recordsRead env hr, hd]
  simp only [Bool.false_eq_true, if_false]
  obtain ⟨h1, h2, h3, h4, h5⟩ :=
    runPool_spec env.opFails env.sched (makeBatches (likedToPurge env.rows))
  exact ⟨h2, h3, h4, h5, h1⟩

theorem purgeLiked_every_batch_once_witness :
    failingLikedEnv.recordsRead = true ∧ failingLikedEnv.dryrun = false
    ∧ (purgeLiked failingLikedEnv).calls = makeBatches (likedToPurge failingLikedEnv.rows)
    ∧ (purgeLiked failingLikedEnv).barAdds
        = (makeBatches (likedToPurge failingLikedEnv.rows)).length
    ∧ (purgeLiked failingLikedEnv).err = none :=
  ⟨by decide, rfl,
   (purgeLiked_every_batch_once failingLikedEnv (by decide) rfl).1,
   (purgeLiked_every_batch_once failingLikedEnv (by decide) rfl).2.2.1,
   (purgeLiked_every_batch_once failingLikedEnv (by decide) rfl).2.2.2.2⟩

/-- C8 (counterexample): a liked-tracks purge whose only batch fails, and a playlist
purge whose first of two calls fails, both log the failure and return nil. -/
theorem purge_failed_chunk_returns_nil :
    (failingLikedEnv.opFails 0 ["t1"] = true
      ∧ (purgeLiked failingLikedEnv).calls = [["t1"]]
      ∧ (purgeLiked failingLikedEnv).logged = [0]
      ∧ ¬ (purgeLiked failingLikedEnv).err ≠ none)
    ∧ (failingPlaylistEnv.opFails 0 "p1" = true
      ∧ (purgePlaylist failingPlaylistEnv).calls = ["p1", "p2"]
      ∧ (purgePlaylist failingPlaylistEnv).logged = [0]
      ∧ ¬ (purgePlaylist failingPlaylistEnv).err ≠ none) := by
  have hb : makeBatches (likedToPurge failingLikedEnv.rows) = [["t1"]] :=
    makeBatches_of_le _ (by decide) (by decide)
  have hl : purgeLiked failingLikedEnv
      = runPool failingLikedEnv.opFails failingLikedEnv.sched [["t1"]] := by
    rw [purgeLiked_of_recordsRead failingLikedEnv (by decide), ← hb]
    rfl
  refine ⟨⟨rfl, ?_, ?_, ?_⟩, ⟨rfl, ?_, ?_, ?_⟩⟩
  · rw [hl]; decide
  · rw [hl]; decide
  · rw [hl]; decide
  · decide
  · decide
  · decide

/-- C8 (amended): a non-dry-run purge that has read its records issues the remote
operation for every chunk (every batch of liked tracks, every playlist) and returns
nil, also when the operation fails for some or all chunks; the failures are logged. -/
theorem purge_attempts_all_and_returns_nil (envL : PurgeEnv trackRow (List SpotifyID))
    (envP : PurgeEnv playlistRow SpotifyID)
    (hrL : envL.recordsRead = true) (hdL : envL.dryrun = false)
    (hrP : envP.recordsRead = true) (hdP : envP.dryrun = false) :
    ((purgeLiked envL).calls = makeBatches (likedToPurge envL.rows)
      ∧ (purgeLiked envL).err = none
      ∧ (purgeLiked envL).logged.Perm
          (((makeBatches (likedToPurge envL.rows)).enum.filter
              (fun task => envL.opFails task.1 task.2)).map (fun task => task.1)))
    ∧ ((purgePlaylist envP).calls = playlistsToPurge envP.rows
      ∧ (purgePlaylist envP).err = none
      ∧ (purgePlaylist envP).logged.Perm
          (((playlistsToPurge envP.rows).enum.filter
              (fun task => envP.opFails task.1 task.2)).map (fun task => task.1))) := by
  constructor
  · rw [purgeLiked_of_recordsRead envL hrL, hdL]
    simp only [Bool.false_eq_true, if_false]
    obtain ⟨h1, h2, _, _, h5⟩ :=
      runPool_spec envL.opFails envL.sched (makeBatches (likedToPurge envL.rows))
    exact ⟨h2, h1, h5⟩
  · rw [purgePlaylist_of_recordsRead envP hrP, hdP]
    simp only [Bool.false_eq_true, if_false]
    obtain ⟨h1, h2, _, _, h5⟩ :=
      runPool_spec envP.opFails envP.sched (playlistsToPurge envP.rows)
    exact ⟨h2, h1, h5⟩

theorem purge_attempts_all_and_returns_nil_witness :
    failingLikedEnv.recordsRead = true ∧ failingLikedEnv.dryrun = false
    ∧ failingPlaylistEnv.recordsRead = true ∧ failingPlaylistEnv.dryrun = false
    ∧ (purgeLiked failingLikedEnv).err = none
    ∧ (purgePlaylist failingPlaylistEnv).calls = playlistsToPurge failingPlaylistEnv.rows
    ∧ (purgePlaylist failingPlaylistEnv).err = none :=
  ⟨by decide, rfl, by decide, rfl,
   (purge_attempts_all_and_returns_nil failingLikedEnv failingPlaylistEnv
      (by decide) rfl (by decide) rfl).1.2.1,
   (purge_attempts_all_and_returns_nil failingLikedEnv failingPlaylistEnv
      (by decide) rfl (by decide) rfl).2.1,
   (purge_attempts_all_and_returns_nil failingLikedEnv failingPlaylistEnv
      (by decide) rfl (by decide) rfl).2.2.1⟩

end Playlistinator
